import Mathlib

/-!
Verification development for the AIVory Node.js monitoring agent
(`aivorynet/agent-nodejs`).  The definitions below are a shallow
embedding, translated statement by statement from the TypeScript
sources:

* `src/transport/backend-connection.ts` — the `BackendConnection`
  WebSocket transport (outbound queue, registration drain, reconnect
  backoff) and the `InspectorManager` debugger session (pause handling,
  locals cache, dedup set, property materialisation);
* `src/capture/exception-handler.ts` — the `ExceptionHandler`
  pipeline (stack-trace parsing, fingerprinting, manual capture);
* `src/config.ts` — `AgentConfig` (capture limits, api-key resolution);
* `src/index.ts` — the public `init` / `captureException` surface.

JavaScript idioms are modelled explicitly: `x || y` on strings falls
through on the empty string (`jsOrStr`), `Map`/`Set` iteration order is
insertion order (association lists), asynchronous promise chains that
the single-threaded event loop runs to completion are modelled as
sequential state transformations.
-/

namespace Aivory

/-! ## JavaScript string / collection primitives -/

/-- JS `s.split(c)` for a one-character separator: splitting the empty
string yields `[""]`, and separators at the ends produce empty pieces. -/
def splitOnCharList (c : Char) : List Char → List (List Char)
  | [] => [[]]
  | x :: xs =>
    let r := splitOnCharList c xs
    if x = c then [] :: r
    else
      match r with
      | h :: t => (x :: h) :: t
      | [] => [[x]]

/-- String wrapper for `splitOnCharList`. -/
def jsSplitChar (c : Char) (s : String) : List String :=
  (splitOnCharList c s.data).map (fun l => String.mk l)

/-- JS `a || b` for an optional string `a`: `undefined`, `null` and the
empty string are falsy and fall through to the default. -/
def jsOrStr (a : Option String) (b : String) : String :=
  match a with
  | some s => if s = "" then b else s
  | none => b

/-- Truthiness of an optional JS string (`undefined` / `null` / `""` are falsy). -/
def jsTruthyStr (a : Option String) : Bool :=
  match a with
  | some s => s ≠ ""
  | none => false

/-- Whether `needle` occurs as a contiguous substring of `hay`
(JS `String.prototype.includes`). -/
def listHasInfix (needle : List Char) : List Char → Bool
  | [] => needle.isEmpty
  | c :: t => needle.isPrefixOf (c :: t) || listHasInfix needle t

/-- JS `s.includes(sub)`. -/
def hasSubstr (s sub : String) : Bool :=
  listHasInfix sub.data s.data

/-- JS `s.replace(pat, "")` with a plain-string pattern: removes the
first occurrence only. -/
def removeFirstList (pat : List Char) : List Char → List Char
  | [] => []
  | c :: t =>
    if pat.isPrefixOf (c :: t) then (c :: t).drop pat.length
    else c :: removeFirstList pat t

/-- String wrapper for `removeFirstList`. -/
def removeFirst (s pat : String) : String :=
  String.mk (removeFirstList pat.data s.data)

/-- The characters matched by the regex class `\s` on the inputs the
agent sees (space, tab, carriage return, newline, form feed). -/
def isJsSpace (c : Char) : Bool :=
  c = ' ' || c = '\t' || c = '\r' || c = '\n' || c = '\x0c'

/-- JS `String.prototype.trim`, character-list based. -/
def jsTrim (s : String) : String :=
  String.mk (((s.data.dropWhile Char.isWhitespace).reverse.dropWhile Char.isWhitespace).reverse)

/-- JS `s.startsWith(pre)`. -/
def startsWithStr (s pre : String) : Bool :=
  pre.data.isPrefixOf s.data

/-- JS `s.slice(n)` in characters. -/
def strDrop (s : String) (n : Nat) : String :=
  String.mk (s.data.drop n)

/-- JS `s.substring(0, n)` in characters. -/
def strTake (s : String) (n : Nat) : String :=
  String.mk (s.data.take n)

/-- Digit-run to number, `parseInt` on a nonempty decimal digit string. -/
def digitsToNat (l : List Char) : Nat :=
  l.foldl (fun n c => 10 * n + (c.toNat - 48)) 0

/-- JS `Map.prototype.set` / object property assignment on an ordered
association list: an existing key keeps its position and gets the new
value, a fresh key is appended at the end. -/
def jsMapSet {α : Type} (k : String) (v : α) : List (String × α) → List (String × α)
  | [] => [(k, v)]
  | (k', v') :: t => if k' = k then (k, v) :: t else (k', v') :: jsMapSet k v t

/-- JS `Map.prototype.get` (first match in insertion order; keys are unique). -/
def jsMapGet {α : Type} (k : String) : List (String × α) → Option α
  | [] => none
  | (k', v') :: t => if k' = k then some v' else jsMapGet k t

/-- JS `Map.prototype.delete`. -/
def jsMapDelete {α : Type} (k : String) : List (String × α) → List (String × α)
  | [] => []
  | (k', v') :: t => if k' = k then t else (k', v') :: jsMapDelete k t

/-- Membership in a JS `Set` of strings. -/
def jsSetHas (k : String) (s : List String) : Bool :=
  s.contains k

/-! ## Transport: `BackendConnection` (src/transport/backend-connection.ts) -/

/-- The mutable fields of `BackendConnection` that the queueing,
registration and reconnect logic touches.  `wsOpen` models
`this.ws && this.ws.readyState === WebSocket.OPEN`; `wire` is the
sequence of frames actually written to the socket, in order. -/
structure BCState where
  connected : Bool
  authenticated : Bool
  wsOpen : Bool
  messageQueue : List String
  wire : List String
  reconnectAttempts : Nat
  maxReconnectAttempts : Nat
  reconnectDelay : Nat
  deriving Repr, DecidableEq

/-- The state of a freshly constructed `BackendConnection`. -/
def BCState.initial : BCState :=
  { connected := false, authenticated := false, wsOpen := false
  , messageQueue := [], wire := []
  , reconnectAttempts := 0, maxReconnectAttempts := 10, reconnectDelay := 1000 }

/-- `BackendConnection.send` (lines 155-185): if the socket is open and
the agent is authenticated (`Registered`) the serialised message goes to
the wire; otherwise it is pushed onto `messageQueue`, and when the queue
then exceeds 100 entries the head (oldest) is shifted off. -/
def BCState.send (m : String) (s : BCState) : BCState :=
  if s.wsOpen && s.authenticated then
    { s with wire := s.wire ++ [m] }
  else
    let q := s.messageQueue ++ [m]
    let q := if q.length > 100 then q.tail else q
    { s with messageQueue := q }

/-- `BackendConnection.handleRegistered` (lines 247-262): mark the agent
authenticated, then drain the queue front to back; each shifted message
is written to the socket when it is open.  The `while` loop is
synchronous, so no other send interleaves with the drain. -/
def BCState.handleRegistered (s : BCState) : BCState :=
  { s with authenticated := true
         , messageQueue := []
         , wire := if s.wsOpen then s.wire ++ s.messageQueue else s.wire }

/-- The `ws.on('open')` handler inside `BackendConnection.connect`
(lines 58-65): marks the transport connected and resets
`reconnectAttempts` to 0 before sending the register message. -/
def BCState.onOpen (s : BCState) : BCState :=
  { s with connected := true, wsOpen := true, reconnectAttempts := 0 }

/-- `BackendConnection.disconnect` (lines 98-108). -/
def BCState.disconnect (s : BCState) : BCState :=
  { s with wsOpen := false, connected := false, authenticated := false }

/-- `BackendConnection.handleError` (lines 264-272) for an
`auth_error` / `invalid_api_key` payload: disable reconnection by
zeroing `maxReconnectAttempts`, then disconnect. -/
def BCState.handleAuthError (s : BCState) : BCState :=
  BCState.disconnect { s with maxReconnectAttempts := 0 }

/-- `BackendConnection.scheduleReconnect` (lines 302-318): returns the
updated state together with the scheduled delay in milliseconds, or
`none` when the attempt cap is already reached. -/
def BCState.scheduleReconnect (s : BCState) : BCState × Option Nat :=
  if s.reconnectAttempts ≥ s.maxReconnectAttempts then (s, none)
  else
    let attempts := s.reconnectAttempts + 1
    ({ s with reconnectAttempts := attempts },
     some (min (s.reconnectDelay * 2 ^ (attempts - 1)) 60000))

/-! ## Config (src/config.ts, `AgentConfig`) -/

/-- The capture-relevant fields of `AgentConfig`.  Defaults mirror the
constructor: `maxCaptureDepth = 10`, `maxStringLength = 1000`,
`maxCollectionSize = 100`, `scopeDepth = 0`. -/
structure AgentConfig where
  apiKey : String := ""
  maxCaptureDepth : Nat := 10
  maxStringLength : Nat := 1000
  maxCollectionSize : Nat := 100
  scopeDepth : Nat := 0
  samplingRate : Nat := 1
  deriving Repr, DecidableEq

/-! ## Variable Harvester data model (src/transport/backend-connection.ts,
`InspectorManager.capturePropertyValue` and friends) -/

/-- `CapturedVariable` from src/capture/exception-handler.ts: the
recursive record describing one harvested value.  `children` and
`arrayElements` model the optional fields (absent unless set). -/
inductive CapturedVariable where
  | mk (name : String) (type : String) (value : String)
       (isNull : Bool) (isTruncated : Bool)
       (children : Option (List (String × CapturedVariable)))
       (arrayElements : Option (List CapturedVariable))
       (arrayLength : Option Nat)

def CapturedVariable.name : CapturedVariable → String
  | .mk n _ _ _ _ _ _ _ => n

def CapturedVariable.type : CapturedVariable → String
  | .mk _ t _ _ _ _ _ _ => t

def CapturedVariable.value : CapturedVariable → String
  | .mk _ _ v _ _ _ _ _ => v

def CapturedVariable.isNull : CapturedVariable → Bool
  | .mk _ _ _ b _ _ _ _ => b

def CapturedVariable.isTruncated : CapturedVariable → Bool
  | .mk _ _ _ _ b _ _ _ => b

def CapturedVariable.children : CapturedVariable → Option (List (String × CapturedVariable))
  | .mk _ _ _ _ _ c _ _ => c

def CapturedVariable.arrayElements : CapturedVariable → Option (List CapturedVariable)
  | .mk _ _ _ _ _ _ a _ => a

def CapturedVariable.arrayLength : CapturedVariable → Option Nat
  | .mk _ _ _ _ _ _ _ l => l

/-- `inspector.Runtime.RemoteObject` as the agent reads it: `value`
holds the textual rendering of a primitive (for strings, the string
itself — the code's `String(value.value)` coincides with it on the
boolean/number cases). -/
structure RemoteObject where
  type : String
  subtype : Option String := none
  className : Option String := none
  value : Option String := none
  description : Option String := none
  objectId : Option Nat := none
  unserializableValue : Option String := none
  deriving Repr, DecidableEq

/-- `inspector.Runtime.PropertyDescriptor` restricted to the fields the
agent touches. -/
structure PropertyDescriptor where
  name : String
  value : Option RemoteObject
  deriving Repr, DecidableEq

/-- The debugger-side object graph: `Runtime.getProperties` answers for
each object id (a `none` lookup models a protocol error, to which the
code answers with an empty property record). -/
def Heap := List (Nat × List PropertyDescriptor)

def heapGet (oid : Nat) : Heap → Option (List PropertyDescriptor)
  | [] => none
  | (k, props) :: t => if k = oid then some props else heapGet oid t

/-- One step of the regex `/Array\((\d+)\)/` at the head of `l`:
literal "Array(", then a nonempty digit run, then ")". -/
def arrayLenAt (l : List Char) : Option Nat :=
  let pre := "Array(".data
  if pre.isPrefixOf l then
    let rest := l.drop pre.length
    let ds := rest.takeWhile Char.isDigit
    let rest2 := rest.drop ds.length
    if ds ≠ [] ∧ rest2.head? = some ')' then some (digitsToNat ds) else none
  else none

/-- Search of `/Array\((\d+)\)/` anywhere in the character list
(leftmost match, as `String.prototype.match` reports). -/
def findArrayLenList : List Char → Option Nat
  | [] => none
  | c :: t =>
    match arrayLenAt (c :: t) with
    | some n => some n
    | none => findArrayLenList t

/-- Array length extracted from a description like "Array(5)". -/
def findArrayLen (s : String) : Option Nat :=
  findArrayLenList s.data

/-- Test of the regex `/^\d+$/` (numeric array index). -/
def isAllDigits (s : String) : Bool :=
  s ≠ "" && s.data.all Char.isDigit

mutual

/-- `InspectorManager.capturePropertyValue` (lines 987-1091).  The
`switch` on the remote object's reported type; note the string branch
truncates at the literal 500 and the array branch compares against the
literal 100, exactly as the source does (the configured
`maxStringLength` / `maxCollectionSize` are not consulted there). -/
def capturePropertyValue (cfg : AgentConfig) (heap : Heap)
    (prop : PropertyDescriptor) (depth : Nat) : Option CapturedVariable :=
  match prop.value with
  | none => none
  | some v =>
    match v.type with
    | "undefined" => some (.mk prop.name "undefined" "undefined" false false none none none)
    | "boolean" => some (.mk prop.name v.type (v.value.getD "undefined") false false none none none)
    | "number" => some (.mk prop.name v.type (v.value.getD "undefined") false false none none none)
    | "string" =>
      let strValue := v.value.getD ""
      if strValue.length > 500 then
        some (.mk prop.name v.type (strTake strValue 500) false true none none none)
      else
        some (.mk prop.name v.type strValue false false none none none)
    | "symbol" => some (.mk prop.name v.type (jsOrStr v.description "Symbol") false false none none none)
    | "function" => some (.mk prop.name "function" (jsOrStr v.description "[Function]") false false none none none)
    | "object" =>
      match v.subtype with
      | some "null" => some (.mk prop.name "null" "null" true false none none none)
      | some "array" =>
        let alen := match v.description with
          | some d => (findArrayLen d).getD 0
          | none => 0
        let els :=
          if _h : depth < cfg.maxCaptureDepth - 1 then
            match v.objectId with
            | some oid => if alen ≤ 100 then getArrayElements cfg heap oid (depth + 1) else []
            | none => []
          else []
        let elsOpt := if els.length > 0 then some els else none
        some (.mk prop.name "array" (jsOrStr v.description "[]") false false none elsOpt (some alen))
      | some "error" => some (.mk prop.name "error" (jsOrStr v.description "[Error]") false false none none none)
      | some "date" => some (.mk prop.name "date" (jsOrStr v.description "[Date]") false false none none none)
      | some "regexp" => some (.mk prop.name "regexp" (jsOrStr v.description "[RegExp]") false false none none none)
      | some "map" => some (.mk prop.name "map" (jsOrStr v.description "[Map]") false false none none none)
      | some "set" => some (.mk prop.name "set" (jsOrStr v.description "[Set]") false false none none none)
      | _ =>
        let kids :=
          if _h : depth < cfg.maxCaptureDepth - 1 then
            match v.objectId with
            | some oid => getObjectProperties cfg heap oid (depth + 1)
            | none => []
          else []
        let kidsOpt := if kids.length > 0 then some kids else none
        some (.mk prop.name (jsOrStr v.className "object") (jsOrStr v.description "\x7b\x7d") false false kidsOpt none none)
    | "bigint" => some (.mk prop.name "bigint" (jsOrStr v.description (jsOrStr v.unserializableValue "0n")) false false none none none)
    | _ => some (.mk prop.name v.type (jsOrStr v.description (v.value.getD "undefined")) false false none none none)
termination_by (cfg.maxCaptureDepth - depth, 0, 0)

/-- `InspectorManager.getObjectProperties` (lines 948-982): empty answer
once `depth ≥ maxCaptureDepth` or on a protocol error; otherwise the
own properties, skipping `__`-prefixed names and "constructor". -/
def getObjectProperties (cfg : AgentConfig) (heap : Heap)
    (oid : Nat) (depth : Nat) : List (String × CapturedVariable) :=
  if depth ≥ cfg.maxCaptureDepth then []
  else
    match heapGet oid heap with
    | none => []
    | some props => walkProps cfg heap props depth
termination_by (cfg.maxCaptureDepth - depth, 2, 0)

/-- The property loop inside `getObjectProperties`. -/
def walkProps (cfg : AgentConfig) (heap : Heap)
    (l : List PropertyDescriptor) (depth : Nat) : List (String × CapturedVariable) :=
  match l with
  | [] => []
  | p :: t =>
    if startsWithStr p.name "__" || p.name = "constructor" then
      walkProps cfg heap t depth
    else
      match capturePropertyValue cfg heap p depth with
      | some c => (p.name, c) :: walkProps cfg heap t depth
      | none => walkProps cfg heap t depth
termination_by (cfg.maxCaptureDepth - depth, 1, l.length)

/-- `InspectorManager.getArrayElements` (lines 1096-1127): the
numerically-indexed own properties, in order. -/
def getArrayElements (cfg : AgentConfig) (heap : Heap)
    (oid : Nat) (depth : Nat) : List CapturedVariable :=
  match heapGet oid heap with
  | none => []
  | some props => walkElems cfg heap props depth
termination_by (cfg.maxCaptureDepth - depth, 2, 0)

/-- The element loop inside `getArrayElements`. -/
def walkElems (cfg : AgentConfig) (heap : Heap)
    (l : List PropertyDescriptor) (depth : Nat) : List CapturedVariable :=
  match l with
  | [] => []
  | p :: t =>
    if isAllDigits p.name then
      match capturePropertyValue cfg heap p depth with
      | some c => c :: walkElems cfg heap t depth
      | none => walkElems cfg heap t depth
    else walkElems cfg heap t depth
termination_by (cfg.maxCaptureDepth - depth, 1, l.length)

end

/-! ## Stack frames and the harvester walk
(`InspectorManager.captureCallFramesAsync`, lines 894-943) -/

/-- `StackFrame` from src/capture/exception-handler.ts; optional fields
are `Option`. -/
structure StackFrame where
  className : Option String := none
  methodName : String
  fileName : Option String := none
  filePath : Option String := none
  lineNumber : Option Nat := none
  columnNumber : Option Nat := none
  isNative : Bool
  sourceAvailable : Bool
  deriving Repr, DecidableEq

/-- Splitting on a character class, JS `s.split(/[/\\]/)`. -/
def splitOnPredList (p : Char → Bool) : List Char → List (List Char)
  | [] => [[]]
  | x :: xs =>
    let r := splitOnPredList p xs
    if p x then [] :: r
    else
      match r with
      | h :: t => (x :: h) :: t
      | [] => [[x]]

/-- `getFileName` (both copies in the source are identical): the last
slash- or backslash-separated component. -/
def getFileName (url : String) : String :=
  let parts := (splitOnPredList (fun c => c = '/' || c = '\\') url.data).map String.mk
  (parts.getLast?).getD ""

/-- A scope entry of a paused call frame.  The source dereferences
`scope.object.objectId!` (non-null assertion), so the id is mandatory
here. -/
structure ScopeRec where
  type : String
  objectId : Nat
  deriving Repr, DecidableEq

/-- `inspector.Debugger.Location`. -/
structure Location where
  scriptId : Nat
  lineNumber : Nat
  columnNumber : Nat
  deriving Repr, DecidableEq

/-- `inspector.Debugger.CallFrame` restricted to what the agent reads. -/
structure CallFrame where
  functionName : String
  location : Location
  scopeChain : List ScopeRec
  deriving Repr, DecidableEq

/-- `InspectorManager.shouldCaptureScope` (lines 1133-1148). -/
def shouldCaptureScope (cfg : AgentConfig) (scopeType : String) : Bool :=
  if cfg.scopeDepth = 0 then
    scopeType = "local" || scopeType = "catch" || scopeType = "block"
  else if cfg.scopeDepth = 1 then
    scopeType = "local" || scopeType = "catch" || scopeType = "block" || scopeType = "closure"
  else
    scopeType ≠ "global"

/-- `InspectorManager.isGlobalBuiltin` (lines 1153-1165). -/
def isGlobalBuiltin (name : String) : Bool :=
  ["process", "console", "global", "globalThis",
   "module", "exports", "require", "__filename", "__dirname",
   "Buffer", "setImmediate", "clearImmediate",
   "setInterval", "clearInterval", "setTimeout", "clearTimeout",
   "queueMicrotask", "performance", "fetch",
   "arguments", "this"].contains name

/-- The `scriptUrls` map (`Debugger.scriptParsed` bookkeeping). -/
def scriptUrlFor (sid : Nat) : List (Nat × String) → Option String
  | [] => none
  | (k, u) :: t => if k = sid then some u else scriptUrlFor sid t

/-- Merging one harvested scope's variables into `localVariables`,
skipping the global built-ins and prefixing with `frame{N}.`. -/
def scopeVarsInto (framePre : String) (vars : List (String × CapturedVariable))
    (acc : List (String × CapturedVariable)) : List (String × CapturedVariable) :=
  vars.foldl (fun a nv => if isGlobalBuiltin nv.1 then a else jsMapSet (framePre ++ nv.1) nv.2 a) acc

/-- The scope-chain loop of one call frame (lines 915-936): each
selected scope's own properties are fetched at recursion depth 0. -/
def frameScopes (cfg : AgentConfig) (heap : Heap) (framePre : String)
    (scopes : List ScopeRec) (acc : List (String × CapturedVariable)) :
    List (String × CapturedVariable) :=
  scopes.foldl
    (fun a sc =>
      if shouldCaptureScope cfg sc.type then
        scopeVarsInto framePre (getObjectProperties cfg heap sc.objectId 0) a
      else a)
    acc

/-- The frame loop of `captureCallFramesAsync`. -/
def captureFramesGo (cfg : AgentConfig) (heap : Heap) (scriptUrls : List (Nat × String)) :
    Nat → List CallFrame → List StackFrame → List (String × CapturedVariable) →
    List StackFrame × List (String × CapturedVariable)
  | _, [], st, lv => (st, lv)
  | i, f :: rest, st, lv =>
    let scriptUrl := (scriptUrlFor f.location.scriptId scriptUrls).getD ""
    let sf : StackFrame :=
      { methodName := jsOrStr (some f.functionName) "<anonymous>"
      , filePath := some scriptUrl
      , fileName := some (getFileName scriptUrl)
      , lineNumber := some (f.location.lineNumber + 1)
      , columnNumber := some f.location.columnNumber
      , isNative := startsWithStr scriptUrl "native "
      , sourceAvailable := !hasSubstr scriptUrl "node_modules" && !startsWithStr scriptUrl "node:" }
    let lv :=
      if i < cfg.maxCaptureDepth then
        frameScopes cfg heap (if i = 0 then "" else "frame" ++ toString i ++ ".") f.scopeChain lv
      else lv
    captureFramesGo cfg heap scriptUrls (i + 1) rest (st ++ [sf]) lv

/-- `InspectorManager.captureCallFramesAsync` (lines 894-943): walks at
most 50 frames, producing the stack trace and the harvested
`local_variables` record. -/
def captureCallFramesAsync (cfg : AgentConfig) (heap : Heap)
    (scriptUrls : List (Nat × String)) (callFrames : List CallFrame) :
    List StackFrame × List (String × CapturedVariable) :=
  captureFramesGo cfg heap scriptUrls 0 (callFrames.take 50) [] []

/-! ## Debugger session state (`InspectorManager`) -/

/-- `CachedLocals` (backend-connection.ts lines 346-350). -/
structure CachedLocals where
  locals : List (String × CapturedVariable)
  stackTrace : List StackFrame
  timestamp : Nat

/-- `CapturedExceptionData` (lines 340-344); `capturedAt` is the
capture time (the source stores it as an ISO string). -/
structure CapturedExceptionData where
  stackTrace : List StackFrame
  localVariables : List (String × CapturedVariable)
  capturedAt : Nat

/-- `InspectorManager`'s mutable collections and counters. -/
structure InspState where
  sentExceptionFingerprints : List String := []
  localsCache : List (String × CachedLocals) := []
  pendingCaptures : List (String × Nat) := []
  lastExceptionData : Option CapturedExceptionData := none
  rateLimitCount : Nat := 0
  rateLimitReset : Nat := 0
  exceptionPauseEnabled : Bool := false
  breakpoints : List (String × String) := []

/-- `cacheMaxAge` (line 379). -/
def cacheMaxAge : Nat := 5000

/-- `rateLimitMax` (line 384). -/
def rateLimitMax : Nat := 50

/-- The dedup-set insertion of `handlePaused` (lines 600-607): `Set.add`
(no-op on an existing member, which keeps its original position),
followed by eviction of the first-inserted member once the size
exceeds 100. -/
def dedupInsert (s : List String) (k : String) : List String :=
  let s1 := if s.contains k then s else s ++ [k]
  if s1.length > 100 then s1.tail else s1

/-- `InspectorManager.cleanupCache` (lines 752-765): drop entries older
than `cacheMaxAge`, then, if more than 100 remain, drop the
first-inserted one. -/
def cleanupCache (now : Nat) (m : List (String × CachedLocals)) : List (String × CachedLocals) :=
  let m1 := m.filter (fun e => now - e.2.timestamp ≤ cacheMaxAge)
  if m1.length > 100 then m1.tail else m1

/-- One locals-cache insertion as `captureAndCacheLocals` performs it:
`localsCache.set(stackKey, …)` followed by `cleanupCache()`. -/
def localsCacheInsert (now : Nat) (k : String) (v : CachedLocals)
    (m : List (String × CachedLocals)) : List (String × CachedLocals) :=
  cleanupCache now (jsMapSet k v m)

/-- The first four lines of a stack text joined by "|" — the common
computation of `extractStackKey` and `getLocalsForError`. -/
def stackKeyOfText (s : String) : String :=
  String.intercalate "|" ((jsSplitChar '\n' s).take 4)

/-- `InspectorManager.extractStackKey` (lines 654-660). -/
def extractStackKey (d : Option RemoteObject) (now : Nat) : String :=
  match d with
  | some o =>
    if jsTruthyStr o.description then stackKeyOfText (o.description.getD "")
    else "unknown-" ++ toString now
  | none => "unknown-" ++ toString now

/-- JS `s.indexOf(c)` for a single character, as an option. -/
def charIndexOf (c : Char) (s : String) : Option Nat :=
  s.data.findIdx? (fun x => x = c)

/-- `InspectorManager.computeFingerprintFromCallFrames` (lines 772-795):
exception type (className, else the part of the description before the
first colon when that colon is not leading) plus the first three
1-indexed line numbers, all joined by "|". -/
def computeFingerprintFromCallFrames (callFrames : List CallFrame)
    (d : Option RemoteObject) : String :=
  let exceptionType :=
    match d with
    | none => "Error"
    | some o =>
      if jsTruthyStr o.className then o.className.getD ""
      else if jsTruthyStr o.description then
        let desc := o.description.getD ""
        match charIndexOf ':' desc with
        | some i => if i > 0 then jsTrim (strTake desc i) else "Error"
        | none => "Error"
      else "Error"
  let lineNumbers := (callFrames.take 3).map (fun f => f.location.lineNumber + 1)
  exceptionType ++ "|" ++ String.intercalate "|" (lineNumbers.map toString)

/-- `InspectorManager.wasExceptionSentByInspector` (lines 863-871). -/
def wasExceptionSentByInspector (st : InspState) (exceptionType : String)
    (stackTrace : List StackFrame) : Bool :=
  let lineNumbers := (stackTrace.take 3).map (fun f => f.lineNumber.getD 0)
  let fp := exceptionType ++ "|" ++ String.intercalate "|" (lineNumbers.map toString)
  st.sentExceptionFingerprints.contains fp

/-- `InspectorManager.captureAndCacheLocals` (lines 665-700), success
path: harvest the call frames, store the result in the locals cache
under the stack key, remember it as `lastExceptionData`, and clean up
the cache.  A harvest error leaves the state unchanged (the `catch`
only logs). -/
def captureAndCacheLocals (cfg : AgentConfig) (heap : Heap)
    (scriptUrls : List (Nat × String)) (callFrames : List CallFrame)
    (stackKey : String) (now : Nat) (st : InspState) : InspState :=
  let (stackTrace, localVariables) := captureCallFramesAsync cfg heap scriptUrls callFrames
  { st with
    localsCache := localsCacheInsert now stackKey ⟨localVariables, stackTrace, now⟩ st.localsCache
    lastExceptionData := some ⟨stackTrace, localVariables, now⟩ }

/-- `InspectorManager.getLocalsForError` (lines 707-747).  Because the
event loop is single threaded, a pending capture has already run to
completion by the time the exception hook executes this lookup, so the
pending-await (bounded by 100 ms) has no further observable effect: the
result is the fresh-cache lookup, consumed one-time on a hit. -/
def getLocalsForError (st : InspState) (now : Nat) (errStack : Option String) :
    Option (List (String × CapturedVariable) × List StackFrame) × InspState :=
  match errStack with
  | none => (none, st)
  | some stk =>
    if stk = "" then (none, st)
    else
      let stackKey := stackKeyOfText stk
      match jsMapGet stackKey st.localsCache with
      | some cached =>
        if now - cached.timestamp < cacheMaxAge then
          (some (cached.locals, cached.stackTrace),
           { st with localsCache := jsMapDelete stackKey st.localsCache })
        else (none, st)
      | none => (none, st)

/-- The observable outcome of one `Debugger.paused` dispatch:
how many `Debugger.resume` commands were posted, how many
`breakpoint_hit` messages were sent, whether a harvest was attempted,
and the updated session state. -/
structure PausedOutcome where
  resumes : Nat
  breakpointHits : Nat
  captureAttempted : Bool
  state : InspState

/-- `InspectorManager.handlePaused` (lines 557-648) with the promise
chain run to completion, as the single-threaded event loop does.
`harvestOk` tells whether the harvest inside `captureAndCacheLocals`
succeeded or threw (its `catch` swallows the error, so the `.then`
continuation — pending-delete, dedup marking, resume — runs either
way).  Rate-limit overflow resumes immediately and skips the capture. -/
def handlePaused (cfg : AgentConfig) (heap : Heap) (scriptUrls : List (Nat × String))
    (st : InspState) (now : Nat) (reason : String) (excData : Option RemoteObject)
    (callFrames : List CallFrame) (hitBreakpoints : List String)
    (harvestOk : Bool) : PausedOutcome :=
  if reason = "exception" || reason = "promiseRejection" then
    let cnt0 := if now > st.rateLimitReset then 0 else st.rateLimitCount
    let reset := if now > st.rateLimitReset then now + 1000 else st.rateLimitReset
    let cnt := cnt0 + 1
    let st := { st with rateLimitCount := cnt, rateLimitReset := reset }
    if cnt > rateLimitMax then
      ⟨1, 0, false, st⟩
    else
      let stackKey := extractStackKey excData now
      let st := { st with pendingCaptures := jsMapSet stackKey now st.pendingCaptures }
      let st := if harvestOk then captureAndCacheLocals cfg heap scriptUrls callFrames stackKey now st else st
      let st := { st with pendingCaptures := jsMapDelete stackKey st.pendingCaptures }
      let st :=
        if reason = "exception" then
          { st with sentExceptionFingerprints :=
              dedupInsert st.sentExceptionFingerprints (computeFingerprintFromCallFrames callFrames excData) }
        else st
      ⟨1, 0, true, st⟩
  else
    match st.breakpoints.find? (fun e => hitBreakpoints.contains e.2) with
    | some _ => ⟨1, if harvestOk then 1 else 0, harvestOk, st⟩
    | none => ⟨1, 0, false, st⟩

/-! ## Exception Pipeline (src/capture/exception-handler.ts) -/

/-- The tail check of the regex `^(?:async\s+)?(.+?)\s+\((.+)\)$` after
the lazy group: a nonempty whitespace run, an opening parenthesis, a
nonempty location, and the closing parenthesis as last character.
Because "(" is not whitespace, only the maximal whitespace run can be
followed by "(", so the greedy `\s+` reduces to taking the full run. -/
def funcTailAt (l : List Char) : Option (List Char) :=
  let ws := l.takeWhile isJsSpace
  if ws.isEmpty then none
  else
    match l.drop ws.length with
    | '(' :: l3 =>
      if l3.length ≥ 2 ∧ l3.getLast? = some ')' then some l3.dropLast else none
    | _ => none

/-- The lazy group `(.+?)`: the shortest nonempty prefix after which the
tail pattern matches, scanned left to right. -/
def funcCoreGo (g1rev : List Char) : List Char → Option (List Char × List Char)
  | [] => none
  | c :: rest =>
    let g1rev' := c :: g1rev
    match funcTailAt rest with
    | some g2 => some (g1rev'.reverse, g2)
    | none => funcCoreGo g1rev' rest

/-- Match of `(.+?)\s+\((.+)\)$` against `l`, returning the two
captured groups. -/
def funcCore (l : List Char) : Option (List Char × List Char) :=
  funcCoreGo [] l

/-- The optional greedy prefix `(?:async\s+)?`: the whitespace run after
"async" is consumed from its maximal length down to one, the first
success winning, as the backtracking engine does. -/
def funcViaAsync (afterAsync : List Char) : Nat → Option (List Char × List Char)
  | 0 => none
  | w + 1 =>
    match funcCore (afterAsync.drop (w + 1)) with
    | some r => some r
    | none => funcViaAsync afterAsync w

/-- JS `content.match(/^(?:async\s+)?(.+?)\s+\((.+)\)$/)`, returning
(method name, location). -/
def matchFuncRegex (content : String) : Option (String × String) :=
  let cs := content.data
  let viaPrefix :=
    if "async".data.isPrefixOf cs then
      let afterAsync := cs.drop 5
      funcViaAsync afterAsync (afterAsync.takeWhile isJsSpace).length
    else none
  let res :=
    match viaPrefix with
    | some r => some r
    | none => funcCore cs
  res.map (fun p => (String.mk p.1, String.mk p.2))

/-- The suffix pattern `(\d+):(\d+)$`: a maximal nonempty digit run, a
colon, then digits to the end (the greedy `(\d+)` backtracking cannot
stop early, since a digit can never satisfy the following ":"). -/
def locSuffixShape (l : List Char) : Option (Nat × Nat) :=
  let d1 := l.takeWhile Char.isDigit
  if d1.isEmpty then none
  else
    match l.drop d1.length with
    | ':' :: d2 =>
      if !d2.isEmpty && d2.all Char.isDigit then some (digitsToNat d1, digitsToNat d2)
      else none
    | _ => none

/-- The greedy group `(.+)` of `^(.+):(\d+):(\d+)$`: candidate colon
positions are tried right to left; `k + 1` tries index `k` first. -/
def locGo (cs : List Char) : Nat → Option (String × Nat × Nat)
  | 0 => none
  | k + 1 =>
    match (if 1 ≤ k then
             match cs.drop k with
             | ':' :: rest => locSuffixShape rest
             | _ => none
           else none) with
    | some (ln, col) => some (String.mk (cs.take k), ln, col)
    | none => locGo cs k

/-- JS `location.match(/^(.+):(\d+):(\d+)$/)`, returning
(file path, line, column). -/
def matchLocRegex (s : String) : Option (String × Nat × Nat) :=
  locGo s.data s.data.length

/-- `ExceptionHandler.parseLocation` (lines 302-332). -/
def parseLocation (methodName location : String) : StackFrame :=
  if location = "native" || hasSubstr location "[native code]" then
    { methodName, isNative := true, sourceAvailable := false }
  else
    match matchLocRegex location with
    | some (fp, ln, col) =>
      { methodName
      , filePath := some fp
      , fileName := some (getFileName fp)
      , lineNumber := some ln
      , columnNumber := some col
      , isNative := false
      , sourceAvailable := !hasSubstr fp "node_modules" && !startsWithStr fp "node:" }
    | none =>
      { methodName, filePath := some location, isNative := false, sourceAvailable := false }

/-- `ExceptionHandler.parseStackFrame` (lines 251-300). -/
def parseStackFrame (line : String) : Option StackFrame :=
  let trimmed := jsTrim line
  if !startsWithStr trimmed "at " then none
  else
    let content := strDrop trimmed 3
    match matchFuncRegex content with
    | some (methodName, location) => some (parseLocation methodName location)
    | none =>
      match matchLocRegex content with
      | some (fp, ln, col) =>
        some { methodName := "<anonymous>"
             , filePath := some fp
             , fileName := some (getFileName fp)
             , lineNumber := some ln
             , columnNumber := some col
             , isNative := false
             , sourceAvailable := true }
      | none =>
        if hasSubstr content "[native code]" || content = "native" then
          some { methodName := removeFirst content " [native code]"
               , isNative := true, sourceAvailable := false }
        else
          some { methodName := content, isNative := false, sourceAvailable := false }

/-- The frame loop of `parseStackTrace` (lines 237-246): push each
parsed frame, stopping once 50 frames are collected. -/
def parseFramesGo : List String → List StackFrame → List StackFrame
  | [], acc => acc
  | l :: ls, acc =>
    let acc' :=
      match parseStackFrame l with
      | some f => acc ++ [f]
      | none => acc
    if acc'.length ≥ 50 then acc' else parseFramesGo ls acc'

/-- `ExceptionHandler.parseStackTrace` (lines 230-249): the lines of
`error.stack || ''` after the leading "Name: message" line. -/
def parseStackTrace (stack : Option String) : List StackFrame :=
  parseFramesGo ((jsSplitChar '\n' (stack.getD "")).drop 1) []

/-- A JS `Error` as the handler reads it. -/
structure JsError where
  name : String
  message : String
  stack : Option String
  deriving Repr, DecidableEq

/-- The input the capture fingerprint digests (lines 339-355):
`error.name || 'Error'` followed by `methodName:lineNumber` for the
first five non-native frames. -/
def fingerprintParts (err : JsError) (stackTrace : List StackFrame) : List String :=
  jsOrStr (some err.name) "Error"
    :: ((stackTrace.filter (fun f => !f.isNative)).take 5).map
        (fun f => f.methodName ++ ":" ++ toString (f.lineNumber.getD 0))

/-- `ExceptionHandler.calculateFingerprint`.  The SHA-256 / first-16-hex
digest step is modelled as the identity on the colon-joined input: no
claim in this development depends on the digest's value, only on the
data that feeds it and on where the result flows. -/
def calculateFingerprint (err : JsError) (stackTrace : List StackFrame) : String :=
  String.intercalate ":" (fingerprintParts err stackTrace)

/-- `ExceptionCapture` (exception-handler.ts lines 27-36); the random
UUID `id` is not modelled, `capturedAt` is the capture time. -/
structure ExceptionCapture where
  exceptionType : String
  message : String
  fingerprint : String
  stackTrace : List StackFrame
  localVariables : List (String × CapturedVariable)
  context : List (String × String)
  capturedAt : Nat

/-- JS object spread `{...a, ...b}` on string records. -/
def jsRecordMerge (a b : List (String × String)) : List (String × String) :=
  b.foldl (fun acc kv => jsMapSet kv.1 kv.2 acc) a

/-- `ExceptionHandler.createCapture` (lines 198-228).  `custom` is the
configured custom context, `user` the configured user rendered as one
string.  `getLastExceptionData` clears the stored data after reading. -/
def createCapture (custom : List (String × String)) (user : String)
    (insp : InspState) (err : JsError) (context : List (String × String))
    (now : Nat) : ExceptionCapture × InspState :=
  let stackTrace := parseStackTrace err.stack
  let fingerprint := calculateFingerprint err stackTrace
  let inspectorData :=
    if insp.exceptionPauseEnabled then
      match insp.lastExceptionData with
      | some d => (d.localVariables, { insp with lastExceptionData := none })
      | none => ([], { insp with lastExceptionData := none })
    else ([], insp)
  ({ exceptionType := jsOrStr (some err.name) "Error"
   , message := err.message
   , fingerprint := fingerprint
   , stackTrace := stackTrace
   , localVariables := inspectorData.1
   , context := jsMapSet "user" user (jsRecordMerge custom context)
   , capturedAt := now }, inspectorData.2)

/-- `ExceptionHandler.capture` (lines 134-153), the public manual
capture entry point, with the locals-cache lookup awaited to
completion.  `sampled` is the outcome of `config.shouldSample()`.  The
returned list holds the captures handed to
`BackendConnection.sendException`. -/
def ExceptionHandler.capture (sampled : Bool) (custom : List (String × String))
    (user : String) (insp : InspState) (err : JsError)
    (context : List (String × String)) (now : Nat) :
    List ExceptionCapture × InspState :=
  if !sampled then ([], insp)
  else
    let r1 := createCapture custom user insp err context now
    let r2 := getLocalsForError r1.2 now err.stack
    let cap :=
      match r2.1 with
      | some (locals, _) => { r1.1 with localVariables := locals }
      | none => r1.1
    ([cap], r2.2)

/-! ## Public surface (src/index.ts) -/

/-- The module-level mutable state of src/index.ts: whether `init`
completed, and which side effects it performed. -/
structure AgentRuntime where
  initialized : Bool := false
  handlersInstalled : Bool := false
  inspectorEnabled : Bool := false
  connectionStarted : Bool := false
  deriving Repr, DecidableEq

/-- `AgentConfig`'s api-key resolution (config.ts line 77):
`options.apiKey || process.env.AIVORY_API_KEY || ''`. -/
def resolveApiKey (optKey envKey : Option String) : String :=
  jsOrStr optKey (jsOrStr envKey "")

/-- `init` (index.ts lines 28-77) restricted to its observable side
effects: a second call returns unchanged; a missing / empty api key
logs an error and returns before installing hooks, enabling the
inspector, or connecting. -/
def init (rt : AgentRuntime) (optKey envKey : Option String) : AgentRuntime :=
  if rt.initialized then rt
  else if resolveApiKey optKey envKey = "" then rt
  else
    { initialized := true, handlersInstalled := true
    , inspectorEnabled := true, connectionStarted := true }

/-- `captureException` (index.ts lines 82-89): a warning and no message
unless the agent is initialized with a live handler; otherwise
`ExceptionHandler.capture`. -/
def captureException (rt : AgentRuntime) (sampled : Bool)
    (custom : List (String × String)) (user : String) (insp : InspState)
    (err : JsError) (context : List (String × String)) (now : Nat) :
    List ExceptionCapture × InspState :=
  if !rt.initialized || !rt.handlersInstalled then ([], insp)
  else ExceptionHandler.capture sampled custom user insp err context now

/-! ## Theorems: transport queue (C5, C6) -/

/-- The bounded-append step shared by the transport queue, the dedup
set and the locals cache: append, then shift the head off once the
length exceeds 100. -/
def qstep {α : Type} (q : List α) (m : α) : List α :=
  if (q ++ [m]).length > 100 then (q ++ [m]).tail else (q ++ [m])

theorem send_wsOpen (m : String) (s : BCState) : (BCState.send m s).wsOpen = s.wsOpen := by
  unfold BCState.send; split <;> rfl

theorem send_auth (m : String) (s : BCState) : (BCState.send m s).authenticated = s.authenticated := by
  unfold BCState.send; split <;> rfl

theorem send_queue_of (m : String) (s : BCState)
    (h : (s.wsOpen && s.authenticated) = false) :
    (BCState.send m s).messageQueue = qstep s.messageQueue m := by
  unfold BCState.send qstep
  rw [h]
  simp

theorem send_queue_reg (m : String) (s : BCState)
    (h : (s.wsOpen && s.authenticated) = true) :
    (BCState.send m s).messageQueue = s.messageQueue := by
  unfold BCState.send
  rw [h]
  simp

theorem send_wire_reg (m : String) (s : BCState)
    (h : (s.wsOpen && s.authenticated) = true) :
    (BCState.send m s).wire = s.wire ++ [m] := by
  unfold BCState.send
  rw [h]
  simp

theorem qstep_len {α : Type} (q : List α) (m : α) (h : q.length ≤ 100) :
    (qstep q m).length ≤ 100 := by
  unfold qstep
  split
  · rw [List.length_tail]; simp; omega
  · rename_i h2; simp at h2 ⊢; omega

theorem qstep_fold {α : Type} (ms : List α) :
    ∀ q : List α, q.length ≤ 100 →
      List.foldl qstep q ms = (q ++ ms).drop ((q ++ ms).length - 100) := by
  induction ms with
  | nil =>
    intro q hq
    simp only [List.append_nil, List.foldl_nil]
    have h0 : q.length - 100 = 0 := by omega
    rw [h0, List.drop_zero]
  | cons m ms ih =>
    intro q hq
    rw [List.foldl_cons, ih (qstep q m) (qstep_len q m hq)]
    by_cases hl : (q ++ [m]).length > 100
    · have hq100 : q.length = 100 := by simp at hl; omega
      have hqe : qstep q m = (q ++ [m]).drop 1 := by
        unfold qstep; rw [if_pos hl, List.drop_one]
      rw [hqe]
      have hA : ((q ++ [m]).drop 1 ++ ms).length - 100 = ms.length := by
        simp [hq100]
      have h1 : (q ++ [m]).drop 1 ++ ms = ((q ++ [m]) ++ ms).drop 1 :=
        (List.drop_append_of_le_length (by simp)).symm
      have hB : (q ++ m :: ms).length - 100 = ms.length + 1 := by
        simp [hq100]
      rw [hA, h1, List.drop_drop, hB, Nat.add_comm 1 ms.length]
      simp
    · have hqe : qstep q m = q ++ [m] := by
        unfold qstep; rw [if_neg hl]
      rw [hqe]
      have hC : (q ++ [m]) ++ ms = q ++ m :: ms := by simp
      rw [hC]

theorem fold_send_queue (ms : List String) :
    ∀ s : BCState, (s.wsOpen && s.authenticated) = false →
      (ms.foldl (fun t m => BCState.send m t) s).messageQueue
        = List.foldl qstep s.messageQueue ms := by
  induction ms with
  | nil => intro s _; rfl
  | cons m ms ih =>
    intro s h
    rw [List.foldl_cons, List.foldl_cons]
    rw [ih (BCState.send m s) (by rw [send_wsOpen, send_auth]; exact h)]
    rw [send_queue_of m s h]

/-- C5.  The outbound queue never exceeds 100 messages after a send,
and enqueueing 101 messages from the initial (unregistered, empty)
state drops exactly the first: the final queue is the tail of the
enqueue sequence, in order. -/
theorem sendQueue_bounded_and_headEvict :
    (∀ (s : BCState) (m : String), s.messageQueue.length ≤ 100 →
        (BCState.send m s).messageQueue.length ≤ 100)
    ∧ (∀ ms : List String, ms.length = 101 →
        (ms.foldl (fun t m => BCState.send m t) BCState.initial).messageQueue = ms.tail) := by
  constructor
  · intro s m h
    by_cases hreg : (s.wsOpen && s.authenticated) = true
    · rw [send_queue_reg m s hreg]; exact h
    · rw [send_queue_of m s (by revert hreg; cases (s.wsOpen && s.authenticated) <;> simp)]
      exact qstep_len _ _ h
  · intro ms hlen
    rw [fold_send_queue ms BCState.initial (by rfl)]
    have hq : BCState.initial.messageQueue = ([] : List String) := rfl
    rw [hq, qstep_fold ms [] (by simp)]
    simp [hlen, List.drop_one]

/-- Witness for C5: 101 concrete messages; the head is evicted, the
last 100 remain in enqueue order. -/
theorem sendQueue_bounded_and_headEvict_witness :
    (((List.range 101).map toString).length = 101)
    ∧ ((((List.range 101).map toString).foldl (fun t m => BCState.send m t)
          BCState.initial).messageQueue = ((List.range 101).map toString).tail) :=
  ⟨by simp, sendQueue_bounded_and_headEvict.2 ((List.range 101).map toString) (by simp)⟩

theorem fold_send_wire (ms : List String) :
    ∀ s : BCState, (s.wsOpen && s.authenticated) = true →
      (ms.foldl (fun t m => BCState.send m t) s).wire = s.wire ++ ms := by
  induction ms with
  | nil => intro s _; simp
  | cons m ms ih =>
    intro s h
    rw [List.foldl_cons, ih (BCState.send m s) (by rw [send_wsOpen, send_auth]; exact h)]
    rw [send_wire_reg m s h]
    simp

/-- C6.  On the transition into `Registered` (over an open socket) the
queued messages are written to the wire in enqueue order and the queue
empties; any sends admitted afterwards land on the wire strictly after
the drained backlog. -/
theorem drainOnRegister_fifo (s : BCState) (ms : List String) (h : s.wsOpen = true) :
    ((BCState.handleRegistered s).wire = s.wire ++ s.messageQueue)
    ∧ ((BCState.handleRegistered s).messageQueue = [])
    ∧ ((ms.foldl (fun t m => BCState.send m t) (BCState.handleRegistered s)).wire
        = s.wire ++ s.messageQueue ++ ms) := by
  refine ⟨?_, rfl, ?_⟩
  · simp [BCState.handleRegistered, h]
  · rw [fold_send_wire ms (BCState.handleRegistered s)
      (by simp [BCState.handleRegistered, h])]
    simp [BCState.handleRegistered, h]

/-- Witness for C6 at a concrete state with a two-message backlog and
one post-registration send. -/
theorem drainOnRegister_fifo_witness :
    (({ BCState.initial with wsOpen := true, messageQueue := ["a", "b"], wire := ["w"] } : BCState).wsOpen = true)
    ∧ (((BCState.handleRegistered { BCState.initial with wsOpen := true, messageQueue := ["a", "b"], wire := ["w"] }).wire
          = ["w"] ++ ["a", "b"])
      ∧ ((BCState.handleRegistered { BCState.initial with wsOpen := true, messageQueue := ["a", "b"], wire := ["w"] }).messageQueue = [])
      ∧ ((["c"].foldl (fun t m => BCState.send m t)
            (BCState.handleRegistered { BCState.initial with wsOpen := true, messageQueue := ["a", "b"], wire := ["w"] })).wire
          = ["w"] ++ ["a", "b"] ++ ["c"])) :=
  ⟨rfl, drainOnRegister_fifo _ ["c"] rfl⟩

/-! ## Theorems: reconnect backoff (C7) -/

/-- Counterexample for C7: the transition into `Registered`
(`handleRegistered`) does not reset the attempt counter — at a state
with 5 recorded attempts the counter is still 5 afterwards.  (It is the
socket `open` handler, i.e. the transition into `Connected`, that
zeroes it.) -/
theorem registeredReset_counterexample :
    (BCState.handleRegistered
        { BCState.initial with reconnectAttempts := 5 }).reconnectAttempts ≠ 0 := by
  simp [BCState.handleRegistered, BCState.initial]

/-- C7 (amended).  With the constructor's base delay of 1000 ms: a
scheduled reconnect for attempt number `k = reconnectAttempts + 1` waits
`min(1000·2^(k-1), 60000)` ms; nothing is scheduled at or beyond
`maxReconnectAttempts` (10 by default, 0 after a credential failure,
which `handleAuthError` forces); and the counter is reset to 0 by the
socket-open (`Connected`) transition rather than by `Registered`. -/
theorem reconnectBackoff_amended (s : BCState) (hd : s.reconnectDelay = 1000) :
    ((s.reconnectAttempts < s.maxReconnectAttempts →
        (BCState.scheduleReconnect s).2
            = some (min (1000 * 2 ^ s.reconnectAttempts) 60000)
        ∧ (BCState.scheduleReconnect s).1.reconnectAttempts = s.reconnectAttempts + 1)
    ∧ (s.reconnectAttempts ≥ s.maxReconnectAttempts →
        (BCState.scheduleReconnect s).2 = none)
    ∧ ((BCState.scheduleReconnect s).1.reconnectAttempts
        ≤ max s.maxReconnectAttempts s.reconnectAttempts)
    ∧ ((BCState.handleAuthError s).maxReconnectAttempts = 0)
    ∧ ((BCState.scheduleReconnect (BCState.handleAuthError s)).2 = none)
    ∧ ((BCState.onOpen s).reconnectAttempts = 0)) := by
  refine ⟨?_, ?_, ?_, rfl, ?_, rfl⟩
  · intro hlt
    simp [BCState.scheduleReconnect, Nat.not_le.mpr hlt, hd]
  · intro hge
    simp [BCState.scheduleReconnect, hge]
  · unfold BCState.scheduleReconnect
    split
    · simp
    · simp
      omega
  · simp [BCState.scheduleReconnect, BCState.handleAuthError, BCState.disconnect]

/-- Witness for C7 (amended) at a concrete state with 3 recorded
attempts: the next delay is 8000 ms. -/
theorem reconnectBackoff_amended_witness :
    (({ BCState.initial with reconnectAttempts := 3 } : BCState).reconnectDelay = 1000)
    ∧ ((({ BCState.initial with reconnectAttempts := 3 } : BCState).reconnectAttempts
          < ({ BCState.initial with reconnectAttempts := 3 } : BCState).maxReconnectAttempts →
        (BCState.scheduleReconnect { BCState.initial with reconnectAttempts := 3 }).2
            = some (min (1000 * 2 ^ (3 : Nat)) 60000)
        ∧ (BCState.scheduleReconnect { BCState.initial with reconnectAttempts := 3 }).1.reconnectAttempts = 3 + 1)
      ∧ (({ BCState.initial with reconnectAttempts := 3 } : BCState).reconnectAttempts
            ≥ ({ BCState.initial with reconnectAttempts := 3 } : BCState).maxReconnectAttempts →
          (BCState.scheduleReconnect { BCState.initial with reconnectAttempts := 3 }).2 = none)
      ∧ ((BCState.scheduleReconnect { BCState.initial with reconnectAttempts := 3 }).1.reconnectAttempts
          ≤ max ({ BCState.initial with reconnectAttempts := 3 } : BCState).maxReconnectAttempts 3)
      ∧ ((BCState.handleAuthError { BCState.initial with reconnectAttempts := 3 }).maxReconnectAttempts = 0)
      ∧ ((BCState.scheduleReconnect (BCState.handleAuthError { BCState.initial with reconnectAttempts := 3 })).2 = none)
      ∧ ((BCState.onOpen { BCState.initial with reconnectAttempts := 3 }).reconnectAttempts = 0)) :=
  ⟨rfl, reconnectBackoff_amended { BCState.initial with reconnectAttempts := 3 } rfl⟩


/-! ## Theorems: pause handling (C4) -/

/-- C4.  Every `Debugger.paused` dispatch with reason `exception` or
`promiseRejection` posts exactly one `Debugger.resume`, in every
outcome — successful harvest, failed harvest, and rate-limit overflow —
and on overflow the capture is skipped. -/
theorem pausedException_oneResume (cfg : AgentConfig) (heap : Heap)
    (scriptUrls : List (Nat × String)) (st : InspState) (now : Nat)
    (reason : String) (excData : Option RemoteObject) (callFrames : List CallFrame)
    (hitBreakpoints : List String) (harvestOk : Bool)
    (h : reason = "exception" ∨ reason = "promiseRejection") :
    ((handlePaused cfg heap scriptUrls st now reason excData callFrames hitBreakpoints harvestOk).resumes = 1)
    ∧ ((if now > st.rateLimitReset then 0 else st.rateLimitCount) + 1 > rateLimitMax →
        (handlePaused cfg heap scriptUrls st now reason excData callFrames hitBreakpoints harvestOk).captureAttempted = false) := by
  have hcond : (reason = "exception" || reason = "promiseRejection") = true := by
    rcases h with h | h <;> simp [h]
  constructor
  · unfold handlePaused
    rw [hcond]
    simp only [if_true]
    split
    all_goals split
    all_goals rfl
  · intro hover
    unfold handlePaused
    rw [hcond]
    simp only [if_true]
    rw [if_pos (by exact hover)]

/-- Witness for C4: one concrete exception pause on a fresh session
resumes exactly once. -/
theorem pausedException_oneResume_witness :
    (("exception" : String) = "exception" ∨ ("exception" : String) = "promiseRejection")
    ∧ (((handlePaused {} ([] : Heap) [] {} 0 "exception" none [] [] true).resumes = 1)
      ∧ ((if (0 : Nat) > ({} : InspState).rateLimitReset then 0 else ({} : InspState).rateLimitCount) + 1 > rateLimitMax →
          (handlePaused {} ([] : Heap) [] {} 0 "exception" none [] [] true).captureAttempted = false)) :=
  ⟨Or.inl rfl,
   pausedException_oneResume {} ([] : Heap) [] {} 0 "exception" none [] [] true (Or.inl rfl)⟩

/-! ## Theorems: bounded structures (C9) -/

theorem jsMapSet_fresh {α : Type} (k : String) (v : α) :
    ∀ m : List (String × α), k ∉ m.map Prod.fst → jsMapSet k v m = m ++ [(k, v)] := by
  intro m
  induction m with
  | nil => intro _; rfl
  | cons e t ih =>
    intro h
    simp only [List.map_cons, List.mem_cons] at h
    push_neg at h
    obtain ⟨h1, h2⟩ := h
    unfold jsMapSet
    rw [if_neg (by exact fun he => h1 he.symm)]
    rw [ih h2]
    simp

theorem jsMapSet_len {α : Type} (k : String) (v : α) :
    ∀ m : List (String × α), (jsMapSet k v m).length ≤ m.length + 1 := by
  intro m
  induction m with
  | nil => simp [jsMapSet]
  | cons e t ih =>
    unfold jsMapSet
    split
    · simp
    · simp only [List.length_cons]
      omega

theorem jsMapGet_set_self {α : Type} (k : String) (v : α) :
    ∀ m : List (String × α), jsMapGet k (jsMapSet k v m) = some v := by
  intro m
  induction m with
  | nil => simp [jsMapSet, jsMapGet]
  | cons e t ih =>
    unfold jsMapSet
    split
    · simp [jsMapGet]
    · rename_i hne
      unfold jsMapGet
      rw [if_neg hne]
      exact ih

theorem qstep_subset {α : Type} (q : List α) (m : α) : qstep q m ⊆ q ++ [m] := by
  unfold qstep
  split
  · exact List.tail_subset _
  · exact fun _ h => h

theorem dedupInsert_eta (s : List String) (k : String) :
    dedupInsert s k
      = (if (if s.contains k then s else s ++ [k]).length > 100
          then (if s.contains k then s else s ++ [k]).tail
          else (if s.contains k then s else s ++ [k])) := rfl

theorem dedupInsert_len (s : List String) (k : String) (h : s.length ≤ 100) :
    (dedupInsert s k).length ≤ min (s.length + 1) 100 := by
  rw [dedupInsert_eta]
  split
  · split
    · rw [List.length_tail]; omega
    · omega
  · split
    · rename_i h2
      rw [List.length_tail]
      simp only [List.length_append, List.length_singleton] at h2 ⊢
      omega
    · rename_i h2
      simp only [List.length_append, List.length_singleton, not_lt] at h2 ⊢
      omega

theorem dedup_fold_len (ks : List String) :
    ∀ s : List String, s.length ≤ 100 →
      (ks.foldl dedupInsert s).length ≤ min (s.length + ks.length) 100 := by
  induction ks with
  | nil => intro s h; simp; omega
  | cons k ks ih =>
    intro s h
    rw [List.foldl_cons]
    have h1 := dedupInsert_len s k h
    have h2 := ih (dedupInsert s k) (by omega)
    simp only [List.length_cons]
    omega

theorem dedupInsert_fresh (s : List String) (k : String) (h : k ∉ s) :
    dedupInsert s k = qstep s k := by
  unfold dedupInsert qstep
  have hc : s.contains k = false := by
    simpa using h
  rw [hc]
  simp

theorem dedup_fold_eq (ks : List String) :
    ∀ s : List String, ks.Nodup → (∀ k ∈ ks, k ∉ s) →
      ks.foldl dedupInsert s = List.foldl qstep s ks := by
  induction ks with
  | nil => intro s _ _; rfl
  | cons k ks ih =>
    intro s hnd hfresh
    rw [List.foldl_cons, List.foldl_cons]
    rw [dedupInsert_fresh s k (hfresh k (List.mem_cons_self k ks))]
    apply ih (qstep s k) (List.Nodup.of_cons hnd)
    intro k' hk'
    have hsub := qstep_subset s k
    intro hmem
    have : k' ∈ s ++ [k] := hsub hmem
    rw [List.mem_append, List.mem_singleton] at this
    rcases this with hins | heq
    · exact hfresh k' (List.mem_cons_of_mem k hk') hins
    · subst heq
      exact (List.nodup_cons.mp hnd).1 hk'

/-- C9, dedup half, FIFO form: folding distinct fingerprints into the
empty set keeps exactly the most recent 100, oldest evicted first. -/
theorem dedup_fold_drop (ks : List String) (h : ks.Nodup) :
    ks.foldl dedupInsert [] = ks.drop (ks.length - 100) := by
  rw [dedup_fold_eq ks [] h (by simp)]
  rw [qstep_fold ks [] (by simp)]
  simp

theorem cleanupCache_eta (now : Nat) (m : List (String × CachedLocals)) :
    cleanupCache now m
      = (if (m.filter (fun e => now - e.2.timestamp ≤ cacheMaxAge)).length > 100
          then (m.filter (fun e => now - e.2.timestamp ≤ cacheMaxAge)).tail
          else (m.filter (fun e => now - e.2.timestamp ≤ cacheMaxAge))) := rfl

theorem localsCacheInsert_len (now : Nat) (k : String) (v : CachedLocals)
    (m : List (String × CachedLocals)) (h : m.length ≤ 100) :
    (localsCacheInsert now k v m).length ≤ min (m.length + 1) 100 := by
  unfold localsCacheInsert
  rw [cleanupCache_eta]
  have h1 := jsMapSet_len k v m
  have h2 : ((jsMapSet k v m).filter (fun e => now - e.2.timestamp ≤ cacheMaxAge)).length
      ≤ (jsMapSet k v m).length := List.length_filter_le _ _
  split
  · rw [List.length_tail]
    omega
  · rename_i h3
    simp only [not_lt] at h3
    omega

theorem cache_fold_len (ops : List (Nat × String × CachedLocals)) :
    ∀ m : List (String × CachedLocals), m.length ≤ 100 →
      (ops.foldl (fun acc o => localsCacheInsert o.1 o.2.1 o.2.2 acc) m).length
        ≤ min (m.length + ops.length) 100 := by
  induction ops with
  | nil => intro m h; simp; omega
  | cons o ops ih =>
    intro m h
    rw [List.foldl_cons]
    have h1 := localsCacheInsert_len o.1 o.2.1 o.2.2 m h
    have h2 := ih (localsCacheInsert o.1 o.2.1 o.2.2 m) (by omega)
    simp only [List.length_cons]
    omega

theorem localsCacheInsert_fresh (now : Nat) (k : String) (v : CachedLocals)
    (m : List (String × CachedLocals)) (hk : k ∉ m.map Prod.fst)
    (ht : ∀ e ∈ m, now - e.2.timestamp ≤ cacheMaxAge)
    (hv : now - v.timestamp ≤ cacheMaxAge) :
    localsCacheInsert now k v m = qstep m (k, v) := by
  unfold localsCacheInsert qstep
  rw [cleanupCache_eta]
  rw [jsMapSet_fresh k v m hk]
  have hf : (m ++ [(k, v)]).filter (fun e => now - e.2.timestamp ≤ cacheMaxAge)
      = m ++ [(k, v)] := by
    apply List.filter_eq_self.mpr
    intro e he
    rw [List.mem_append, List.mem_singleton] at he
    rcases he with he | he
    · simpa using ht e he
    · subst he; simpa using hv
  rw [hf]

theorem cache_fold_eq (now : Nat) (v : CachedLocals)
    (hv : now - v.timestamp ≤ cacheMaxAge) (ks : List String) :
    ∀ m : List (String × CachedLocals), ks.Nodup →
      (∀ k ∈ ks, k ∉ m.map Prod.fst) →
      (∀ e ∈ m, now - e.2.timestamp ≤ cacheMaxAge) →
      m.length ≤ 100 →
      ks.foldl (fun acc k => localsCacheInsert now k v acc) m
        = List.foldl qstep m (ks.map (fun k => (k, v))) := by
  induction ks with
  | nil => intro m _ _ _ _; rfl
  | cons k ks ih =>
    intro m hnd hfresh ht hlen
    rw [List.map_cons, List.foldl_cons, List.foldl_cons]
    rw [localsCacheInsert_fresh now k v m (hfresh k (List.mem_cons_self k ks)) ht hv]
    apply ih (qstep m (k, v)) (List.Nodup.of_cons hnd)
    · intro k' hk' hmem
      have hsub := List.map_subset (f := Prod.fst) (qstep_subset m (k, v))
      have : k' ∈ (m ++ [(k, v)]).map Prod.fst := hsub hmem
      simp only [List.map_append, List.map_cons, List.map_nil, List.mem_append,
        List.mem_singleton] at this
      rcases this with hins | heq
      · exact hfresh k' (List.mem_cons_of_mem k hk') hins
      · exact (List.nodup_cons.mp hnd).1 (heq ▸ hk')
    · intro e he
      have : e ∈ m ++ [(k, v)] := qstep_subset m (k, v) he
      rw [List.mem_append, List.mem_singleton] at this
      rcases this with he2 | he2
      · exact ht e he2
      · subst he2; exact hv
    · exact qstep_len m (k, v) hlen

/-- C9.  Both bounded structures of the Debugger Session keep their
capacity invariant and evict oldest-first: after N dedup-set inserts at
most min(N, 100) fingerprints remain, and for distinct fingerprints
exactly the last 100 in insertion order; after N locals-cache inserts
at most min(N, 100) entries remain, and for distinct keys with fresh
timestamps exactly the last 100 in insertion order. -/
theorem boundedStructures_capacity_fifo :
    (∀ ks : List String, (ks.foldl dedupInsert []).length ≤ min ks.length 100)
    ∧ (∀ ks : List String, ks.Nodup →
        ks.foldl dedupInsert [] = ks.drop (ks.length - 100))
    ∧ (∀ ops : List (Nat × String × CachedLocals),
        (ops.foldl (fun m o => localsCacheInsert o.1 o.2.1 o.2.2 m) []).length
          ≤ min ops.length 100)
    ∧ (∀ (ks : List String) (now : Nat) (v : CachedLocals), ks.Nodup →
        now - v.timestamp ≤ cacheMaxAge →
        ks.foldl (fun m k => localsCacheInsert now k v m) []
          = (ks.drop (ks.length - 100)).map (fun k => (k, v))) := by
  refine ⟨?_, ?_, ?_, ?_⟩
  · intro ks
    have := dedup_fold_len ks [] (by simp)
    simpa using this
  · exact dedup_fold_drop
  · intro ops
    have := cache_fold_len ops [] (by simp)
    simpa using this
  · intro ks now v hnd hv
    rw [cache_fold_eq now v hv ks [] hnd (by simp) (by simp) (by simp)]
    rw [qstep_fold (ks.map (fun k => (k, v))) [] (by simp)]
    simp [List.map_drop]

/-- Witness for C9 at two concrete keys and a fresh timestamp. -/
theorem boundedStructures_capacity_fifo_witness :
    ((["x", "y"].Nodup) ∧ ((6 : Nat) - (5 : Nat) ≤ cacheMaxAge))
    ∧ (["x", "y"].foldl dedupInsert [] = ["x", "y"].drop (["x", "y"].length - 100))
    ∧ ((["x", "y"].foldl (fun m k => localsCacheInsert 6 k ⟨[], [], 5⟩ m) [])
        = ((["x", "y"].drop (["x", "y"].length - 100)).map
            (fun k => (k, (⟨[], [], 5⟩ : CachedLocals))))) :=
  ⟨⟨by decide, by decide⟩,
   boundedStructures_capacity_fifo.2.1 ["x", "y"] (by decide),
   boundedStructures_capacity_fifo.2.2.2 ["x", "y"] 6 ⟨[], [], 5⟩ (by decide) (by decide)⟩



/-! ## Theorems: stack-key agreement (C8) -/

/-- C8.  When an error's stack text equals the description the debugger
reported at the pause, the key `extractStackKey` computed then (first
four lines joined by "|") is exactly the key `getLocalsForError`
computes from `error.stack` — so a harvest cached under the pause-time
key is found again, while fresh, at report time. -/
theorem stackKey_agreement (o : RemoteObject) (errStack : String)
    (tPause now : Nat) (c : CachedLocals) (st : InspState)
    (hdesc : o.description = some errStack) (hne : errStack ≠ "")
    (hfresh : now - c.timestamp < cacheMaxAge) :
    (extractStackKey (some o) tPause = stackKeyOfText errStack)
    ∧ ((getLocalsForError
          { st with localsCache := jsMapSet (extractStackKey (some o) tPause) c st.localsCache }
          now (some errStack)).1 = some (c.locals, c.stackTrace)) := by
  have hkey : extractStackKey (some o) tPause = stackKeyOfText errStack := by
    show (if jsTruthyStr o.description = true then stackKeyOfText (o.description.getD "")
          else "unknown-" ++ toString tPause) = stackKeyOfText errStack
    rw [hdesc]
    simp [jsTruthyStr, hne]
  refine ⟨hkey, ?_⟩
  simp only [getLocalsForError]
  rw [if_neg hne]
  rw [← hkey, jsMapGet_set_self]
  dsimp only
  rw [if_pos hfresh]

/-- Witness for C8 on a representative five-line V8 stack string. -/
theorem stackKey_agreement_witness :
    ((({ type := "object"
       , description := some "TypeError: nope\n    at f (a.js:1:1)\n    at g (a.js:2:2)\n    at h (a.js:3:3)\n    at i (a.js:4:4)\n    at j (a.js:5:5)" } : RemoteObject).description
        = some "TypeError: nope\n    at f (a.js:1:1)\n    at g (a.js:2:2)\n    at h (a.js:3:3)\n    at i (a.js:4:4)\n    at j (a.js:5:5)")
      ∧ ("TypeError: nope\n    at f (a.js:1:1)\n    at g (a.js:2:2)\n    at h (a.js:3:3)\n    at i (a.js:4:4)\n    at j (a.js:5:5)" : String) ≠ ""
      ∧ (200 : Nat) - (100 : Nat) < cacheMaxAge)
    ∧ ((extractStackKey
          (some { type := "object"
                , description := some "TypeError: nope\n    at f (a.js:1:1)\n    at g (a.js:2:2)\n    at h (a.js:3:3)\n    at i (a.js:4:4)\n    at j (a.js:5:5)" }) 100
          = stackKeyOfText "TypeError: nope\n    at f (a.js:1:1)\n    at g (a.js:2:2)\n    at h (a.js:3:3)\n    at i (a.js:4:4)\n    at j (a.js:5:5)")
      ∧ ((getLocalsForError
            { ({} : InspState) with
              localsCache := jsMapSet
                (extractStackKey
                  (some { type := "object"
                        , description := some "TypeError: nope\n    at f (a.js:1:1)\n    at g (a.js:2:2)\n    at h (a.js:3:3)\n    at i (a.js:4:4)\n    at j (a.js:5:5)" }) 100)
                (⟨[], [], 100⟩ : CachedLocals) ({} : InspState).localsCache }
            200 (some "TypeError: nope\n    at f (a.js:1:1)\n    at g (a.js:2:2)\n    at h (a.js:3:3)\n    at i (a.js:4:4)\n    at j (a.js:5:5)")).1
          = some ((⟨[], [], 100⟩ : CachedLocals).locals, (⟨[], [], 100⟩ : CachedLocals).stackTrace))) :=
  ⟨⟨rfl, by decide, by decide⟩,
   stackKey_agreement _ _ 100 200 ⟨[], [], 100⟩ {} rfl (by decide) (by decide)⟩

/-! ## Theorems: dedup check on the manual-capture path (C1) -/

/-- A three-frame V8 stack text. -/
def c1stack : String :=
  "Error: boom\n    at foo (app.js:10:7)\n    at bar (app.js:20:3)\n    at baz (app.js:30:1)"

/-- An error whose stack is `c1stack`. -/
def c1err : JsError := ⟨"Error", "boom", some c1stack⟩

/-- A session state whose dedup set already holds this error's
type-and-line-numbers fingerprint (as the debugger path records it). -/
def c1state : InspState := { sentExceptionFingerprints := ["Error|10|20|30"] }

/-- C1 evaluated on the code: the error's dedup key is present in the
set (`wasExceptionSentByInspector` answers true), yet
`ExceptionHandler.capture` still hands one exception message to the
transport — for this state and for every session state, because the
capture path never consults the dedup set. -/
theorem dedupCheck_not_consulted :
    (wasExceptionSentByInspector c1state
        (jsOrStr (some c1err.name) "Error") (parseStackTrace c1err.stack) = true)
    ∧ (((ExceptionHandler.capture true [] "" c1state c1err [] 0).1).length = 1)
    ∧ (∀ st : InspState, ((ExceptionHandler.capture true [] "" st c1err [] 0).1).length = 1) :=
  ⟨by decide, rfl, fun _ => rfl⟩

/-! ## Theorems: string truncation (C2) -/

/-- A 600-character string value reported by the debugger. -/
def c2prop : PropertyDescriptor :=
  ⟨"s", some { type := "string", value := some (String.mk (List.replicate 600 'a')) }⟩

/-- C2 evaluated on the code: under the default configuration
(`maxStringLength = 1000`) a 600-character string — within the
configured limit — is nevertheless cut to 500 characters with
`isTruncated = true`, because `capturePropertyValue` hard-codes 500. -/
theorem stringTruncation_code_eval :
    ((capturePropertyValue {} ([] : Heap) c2prop 0).map
        (fun c => (c.value.length, c.isTruncated)) = some (500, true))
    ∧ ((String.mk (List.replicate 600 'a')).length = 600)
    ∧ (600 ≤ ({} : AgentConfig).maxStringLength) := by
  refine ⟨?_, by show (List.replicate 600 'a').length = 600; rw [List.length_replicate], by decide⟩
  simp only [capturePropertyValue, c2prop]
  set_option maxRecDepth 4000 in
  norm_num [strTake, List.length_take, CapturedVariable.value, CapturedVariable.isTruncated]

/-! ## Theorems: array-element capture bound (C3) -/

/-- A configuration with `maxCollectionSize` lowered to 50. -/
def c3cfg : AgentConfig := { maxCollectionSize := 50 }

/-- A debugger heap with one array object (id 1) holding two
numerically-indexed own properties. -/
def c3heap : Heap :=
  [(1, [⟨"0", some { type := "number", value := some "1" }⟩,
        ⟨"1", some { type := "number", value := some "2" }⟩])]

/-- An array property whose printed description reports 80 elements. -/
def c3prop : PropertyDescriptor :=
  ⟨"arr", some { type := "object", subtype := some "array"
               , description := some "Array(80)", objectId := some 1 }⟩

/-- C3 evaluated on the code: with `maxCollectionSize = 50` an array of
reported length 80 still gets `arrayElements` materialised, because
`capturePropertyValue` compares against the hard-coded 100 rather than
the configured limit. -/
theorem arrayElements_code_eval :
    ((capturePropertyValue c3cfg c3heap c3prop 0).map
        (fun c => (c.arrayLength, c.arrayElements.isSome)) = some (some 80, true))
    ∧ (80 > c3cfg.maxCollectionSize) := by
  refine ⟨?_, by decide⟩
  simp [capturePropertyValue, getArrayElements, walkElems, getObjectProperties, walkProps,
    heapGet, c3cfg, c3heap, c3prop, findArrayLen, findArrayLenList, arrayLenAt,
    digitsToNat, jsOrStr, isAllDigits, strTake, CapturedVariable.arrayLength,
    CapturedVariable.arrayElements]

/-! ## Theorems: init without an api key (C10) -/

/-- The module state before any successful `init`. -/
def freshAgent : AgentRuntime := {}

/-- C10.  When neither the options nor the environment provide an api
key, `init` leaves the agent untouched: not initialized, no exception
hooks, no inspector, no connection — and a subsequent
`captureException` emits nothing. -/
theorem init_noApiKey (optKey envKey : Option String)
    (h : resolveApiKey optKey envKey = "") :
    ((init freshAgent optKey envKey).initialized = false)
    ∧ ((init freshAgent optKey envKey).handlersInstalled = false)
    ∧ ((init freshAgent optKey envKey).inspectorEnabled = false)
    ∧ ((init freshAgent optKey envKey).connectionStarted = false)
    ∧ (∀ (sampled : Bool) (custom : List (String × String)) (user : String)
        (insp : InspState) (err : JsError) (context : List (String × String)) (now : Nat),
        (captureException (init freshAgent optKey envKey)
            sampled custom user insp err context now).1 = []) := by
  have hinit : init freshAgent optKey envKey = freshAgent := by
    unfold init
    rw [if_neg (by simp [freshAgent]), if_pos h]
  rw [hinit]
  exact ⟨rfl, rfl, rfl, rfl, fun _ _ _ _ _ _ _ => rfl⟩

/-- Witness for C10 with no key in either source. -/
theorem init_noApiKey_witness :
    (resolveApiKey none none = "")
    ∧ (((init freshAgent none none).initialized = false)
      ∧ ((init freshAgent none none).handlersInstalled = false)
      ∧ ((init freshAgent none none).inspectorEnabled = false)
      ∧ ((init freshAgent none none).connectionStarted = false)
      ∧ (∀ (sampled : Bool) (custom : List (String × String)) (user : String)
          (insp : InspState) (err : JsError) (context : List (String × String)) (now : Nat),
          (captureException (init freshAgent none none)
              sampled custom user insp err context now).1 = [])) :=
  ⟨rfl, init_noApiKey none none rfl⟩


end Aivory
